import Mathlib

/-!
Shallow embedding of the polling/rendering pipeline of
`dashboard/app.js` (Hackquest trade-conflict dashboard client).

JavaScript values that the dashboard reads from the fetched JSON
snapshot are modelled by explicit inductive types:

* `JsVal` — a scalar field value: a number, a string, or `undefined`
  (the value of a missing object property in JS).
* `TSVal` — the `timestamp` field: a string or `undefined`; JS strict
  equality `===` on these values is plain decidable equality.
* JS objects used as ordered key→value mappings become association
  lists (`Object.entries` preserves insertion order for string keys).
* A possibly-absent object field of object type becomes an `Option`.

JS numbers are modelled by `ℚ`: the claims under study only involve
`min`, `max`, comparison, and exact division, which agree with IEEE
semantics on the cited concrete inputs.

DOM/canvas output is modelled structurally: each renderer returns the
structured content it would write (list panels, cards, bars, cells,
chart scale parameters) instead of mutating a document.
-/

inductive JsVal where
  | num (q : ℚ)
  | str (s : String)
  | undef
deriving DecidableEq, Repr

inductive TSVal where
  | undef
  | str (s : String)
deriving DecidableEq, Repr

/-- `learning` record (`data.learning`); its sub-fields are read with
`data.learning.alpha_aggression` etc., which never throw once
`data.learning` itself is an object. -/
structure Learning where
  alpha_aggression : JsVal
  effectiveness_score : JsVal
  note : JsVal
deriving DecidableEq, Repr

/-- `payload` of an event, carrying an optional `payoff_matrix`. -/
structure Payload where
  payoff_matrix : Option (List (String × String))
deriving DecidableEq, Repr

/-- One element of `data.events`. -/
structure Event where
  timestamp : String
  source : String
  title : String
  memo : String
  topic : String
  payload : Option Payload
deriving DecidableEq, Repr

/-- One element of `data.policy_timeline`. -/
structure TimelineItem where
  timestamp : String
  label : String
deriving DecidableEq, Repr

/-- One `CountryMetrics` record (`data.countries[...]`). Scalar fields
may be numbers, strings, or absent (`undefined`); the three sector
mappings may each be absent. -/
structure CountryMetrics where
  gdp : JsVal
  welfare : JsVal
  political_pressure : JsVal
  exports : Option (List (String × JsVal))
  imports : Option (List (String × JsVal))
  tariffs : Option (List (String × JsVal))
deriving DecidableEq, Repr

/-- `data.countries`: the refresh loop looks each entity up under its
full name key (`"Country Alpha"` …) and falls back to a short alias key
(`alpha` …) via JS `||` (objects are always truthy). -/
structure Countries where
  countryAlpha : Option CountryMetrics
  aliasAlpha : Option CountryMetrics
  countryBeta : Option CountryMetrics
  aliasBeta : Option CountryMetrics
  countryGamma : Option CountryMetrics
  aliasGamma : Option CountryMetrics
deriving DecidableEq, Repr

/-- `data.welfare_impact`: per-entity welfare numbers; any key may be
absent, in which case JS indexing yields `undefined` (here `none`),
which is pushed into the history buffer as-is. -/
structure WelfareImpact where
  countryAlpha : Option ℚ
  countryBeta : Option ℚ
  countryGamma : Option ℚ
deriving DecidableEq, Repr

/-- The parsed snapshot document. Every field except `timestamp` is
optional, mirroring a JSON document with an arbitrary subset of the
expected keys (a missing key reads as `undefined`). -/
structure Snapshot where
  timestamp : TSVal
  round : JsVal
  phase : JsVal
  classification : JsVal
  learning : Option Learning
  countries : Option Countries
  trade_flow : Option (List (String × ℚ))
  welfare_impact : Option WelfareImpact
  events : Option (List Event)
  policy_timeline : Option (List TimelineItem)
  agent_status : Option (List (String × String))
  system_health : Option String
deriving DecidableEq, Repr

/-! ## Panel renderers -/

/-- Output of a list-shaped panel renderer: either the single
placeholder `<li>` with the given text, or the rendered item list in
display order. -/
inductive ListPanel (α : Type) where
  | placeholder (msg : String)
  | items (l : List α)
deriving DecidableEq, Repr

/-- `renderTimeline(items)`: clears the panel; absent or empty input
renders one placeholder item; otherwise items are shown
most-recent-first (`items.slice().reverse()`). -/
def renderTimeline (items : Option (List TimelineItem)) : ListPanel TimelineItem :=
  match items with
  | none => .placeholder "Awaiting first policy updates..."
  | some l =>
      if l = [] then .placeholder "Awaiting first policy updates..."
      else .items l.reverse

/-- `renderFeed(events)`: same contract over the full event list. -/
def renderFeed (events : Option (List Event)) : ListPanel Event :=
  match events with
  | none => .placeholder "No agent activity yet."
  | some l =>
      if l = [] then .placeholder "No agent activity yet."
      else .items l.reverse

/-- The fixed topic allowlist of the messages panel. -/
def messageTopics : List String := ["policy", "strategy", "negotiation", "market"]

/-- `renderMessages(events)`: placeholder only when the whole event
list is absent or empty; otherwise filter to the topic allowlist,
reverse, and keep the first 12 after reversal. -/
def renderMessages (events : Option (List Event)) : ListPanel Event :=
  match events with
  | none => .placeholder "No inter-agent messages yet."
  | some l =>
      if l = [] then .placeholder "No inter-agent messages yet."
      else .items (((l.filter (fun e => e.topic ∈ messageTopics)).reverse).take 12)

/-! ## Entity metrics renderer -/

/-- Result of `formatNumber(value)`: numbers are rendered with
`value.toFixed(2)` (exactly two decimal places, tagged `fixed2` here);
every other value is passed through unmodified. -/
inductive Formatted where
  | fixed2 (q : ℚ)
  | raw (v : JsVal)
deriving DecidableEq, Repr

def formatNumber : JsVal → Formatted
  | .num q => .fixed2 q
  | v => .raw v

/-- The `table(obj)` helper: `Object.entries(obj || {})` mapped to
key/formatted-value rows, insertion order preserved. -/
def metricTable (obj : Option (List (String × JsVal))) : List (String × Formatted) :=
  (obj.getD []).map (fun kv => (kv.1, formatNumber kv.2))

/-- Content of one entity metrics panel: the initial markup (never
rendered into), the single "No data available." placeholder, or a full
country card with three KPI values and three section tables. -/
inductive CountryPanel where
  | initial
  | noData
  | card (gdp welfare political_pressure : Formatted)
      (exports imports tariffs : List (String × Formatted))
deriving DecidableEq, Repr

/-- `renderCountryMetrics(targetId, data)`: placeholder when the record
is absent or its `gdp` field is `undefined`; otherwise one full card. -/
def renderCountryMetrics (data : Option CountryMetrics) : CountryPanel :=
  match data with
  | none => .noData
  | some d =>
      if d.gdp = .undef then .noData
      else
        .card (formatNumber d.gdp) (formatNumber d.welfare)
          (formatNumber d.political_pressure)
          (metricTable d.exports) (metricTable d.imports)
          (metricTable (some (d.tariffs.getD [])))

/-! ## Chart renderers -/

/-- One drawn bar of the trade-flow chart: sector key, raw value, and
the rectangle geometry actually painted (`x = 20 + idx * barWidth`,
fill width `barWidth * 0.6`, height `value / max * (height - 40)`). -/
structure Bar where
  key : String
  value : ℚ
  x : ℚ
  width : ℚ
  height : ℚ
deriving DecidableEq, Repr

/-- Everything `drawTradeFlow` writes to its canvas: the clear, the
computed scale, and the bars (with labels) in mapping order. -/
structure BarChart where
  cleared : Bool
  maxVal : ℚ
  barWidth : ℚ
  bars : List Bar
deriving DecidableEq, Repr

/-- The per-bar drawing loop of `drawTradeFlow`, abstracted over the
already-computed `barWidth` (which it only uses for x-placement and
fill width, not for deciding whether a bar exists). -/
def tradeFlowBars (barWidth canvasH : ℚ) (maxV : ℚ) (tf : List (String × ℚ)) :
    List Bar :=
  tf.enum.map (fun ikv =>
    { key := ikv.2.1, value := ikv.2.2
      x := 20 + (ikv.1 : ℚ) * barWidth
      width := barWidth * (3/5)
      height := ikv.2.2 / maxV * (canvasH - 40) })

/-- `drawTradeFlow(canvas, tradeFlow)`: clears the canvas, computes
`max = Math.max(...values, 1)` and `barWidth = (width - 40) / keys.length`,
then draws one bar per sector. (In JS the division by a zero key count
yields `Infinity`; here ℚ division by zero yields 0 — in both semantics
the value is only consumed inside the per-key loop, which is empty
exactly when the count is zero.) -/
def drawTradeFlow (canvasW canvasH : ℚ) (tradeFlow : List (String × ℚ)) : BarChart :=
  let values := tradeFlow.map (fun kv => kv.2)
  let maxV := values.foldr max 1
  let barWidth := (canvasW - 40) / (tradeFlow.length : ℚ)
  { cleared := true
    maxVal := maxV
    barWidth := barWidth
    bars := tradeFlowBars barWidth canvasH maxV tradeFlow }

/-- One heatmap cell: sector, raw value, background intensity. -/
structure HeatCell where
  sector : String
  value : ℚ
  intensity : ℚ
deriving DecidableEq, Repr

/-- `renderHeatmap(tradeFlow)`: empties the container, computes
`max = Math.max(...values, 1)`, and appends one cell per sector with
intensity `Math.min(0.85, 0.2 + value / max)`. -/
def renderHeatmap (tradeFlow : Option (List (String × ℚ))) : List HeatCell :=
  let tf := tradeFlow.getD []
  let maxV := (tf.map (fun kv => kv.2)).foldr max 1
  tf.map (fun kv =>
    { sector := kv.1, value := kv.2
      intensity := min (17/20 : ℚ) (1/5 + kv.2 / maxV) })

/-- The scale parameters `drawWelfare` derives from the three history
buffers before drawing the three polylines; the drawn min/max legend
shows `minValue`/`maxValue`. -/
structure WelfareChart where
  maxPoints : ℕ
  xStep : ℚ
  minValue : ℚ
  maxValue : ℚ
  range : ℚ
deriving DecidableEq, Repr

/-- The numeric values drawn by `drawWelfare`: the three buffers
concatenated, keeping only entries of JS type `number`. -/
def welfareAllValues (hA hB hG : List (Option ℚ)) : List ℚ :=
  (hA ++ hB ++ hG).filterMap id

/-- `drawWelfare(canvas)`: `maxPoints = Math.max(alpha.length, 2)`,
`xStep = (width - 2*30) / (maxPoints - 1)`,
`minValue = Math.min(...allValues, 80)`,
`maxValue = Math.max(...allValues, 100)`,
`range = Math.max(1, maxValue - minValue)`. -/
def drawWelfare (canvasW : ℚ) (hA hB hG : List (Option ℚ)) : WelfareChart :=
  let maxPoints := max hA.length 2
  let allValues := welfareAllValues hA hB hG
  let minValue := allValues.foldr min 80
  let maxValue := allValues.foldr max 100
  { maxPoints := maxPoints
    xStep := (canvasW - 60) / ((maxPoints : ℚ) - 1)
    minValue := minValue
    maxValue := maxValue
    range := max 1 (maxValue - minValue) }

/-! ## Session state and the tick orchestrator -/

/-- The module-level mutable session state of `app.js`: the three
history buffers (`history.welfareAlpha/Beta/Gamma`), `lastTimestamp`,
and `staleTicks`. Buffer entries are the raw pushed values
(`welfare_impact[...]`, possibly `undefined`, stored as-is). -/
structure SessionState where
  welfareAlpha : List (Option ℚ)
  welfareBeta : List (Option ℚ)
  welfareGamma : List (Option ℚ)
  lastTimestamp : TSVal
  staleTicks : ℕ
deriving DecidableEq, Repr

/-- Initial session state: empty buffers, `lastTimestamp = ""`,
`staleTicks = 0`. -/
def initState : SessionState :=
  { welfareAlpha := [], welfareBeta := [], welfareGamma := []
    lastTimestamp := .str "", staleTicks := 0 }

/-- The persistent panels whose content survives a tick that does not
rewrite them (the three per-entity metrics panels). -/
structure Dom where
  alphaMetrics : CountryPanel
  betaMetrics : CountryPanel
  gammaMetrics : CountryPanel
deriving DecidableEq, Repr

def initDom : Dom :=
  { alphaMetrics := .initial, betaMetrics := .initial, gammaMetrics := .initial }

/-- The staleness update of `refresh`: `data.timestamp === lastTimestamp`
increments `staleTicks`; otherwise `staleTicks` resets to 0 and
`lastTimestamp` takes the new value (absent timestamps store `undefined`). -/
def staleStep (s : SessionState) (t : TSVal) : SessionState :=
  if t = s.lastTimestamp then
    { s with staleTicks := s.staleTicks + 1 }
  else
    { s with staleTicks := 0, lastTimestamp := t }

/-- The history-buffer update of `refresh`: guarded by
`if (data.welfare_impact)`; pushes one value per buffer, then if the
alpha buffer exceeds 20 entries, shifts the oldest entry off all three. -/
def welfareStep (s : SessionState) (wi : Option WelfareImpact) : SessionState :=
  match wi with
  | none => s
  | some w =>
      let a := s.welfareAlpha ++ [w.countryAlpha]
      let b := s.welfareBeta ++ [w.countryBeta]
      let g := s.welfareGamma ++ [w.countryGamma]
      if a.length > 20 then
        { s with welfareAlpha := a.drop 1, welfareBeta := b.drop 1,
                 welfareGamma := g.drop 1 }
      else
        { s with welfareAlpha := a, welfareBeta := b, welfareGamma := g }

/-- JS `x || y` over two possibly-absent records (records are truthy). -/
def jsOr (x y : Option CountryMetrics) : Option CountryMetrics :=
  match x with
  | some v => some v
  | none => y

/-- The entity-metrics dispatch of `refresh`: runs only when
`data.countries` is present; each entity is looked up under its full
name with alias fallback, and its renderer runs only when the lookup
succeeds — otherwise the panel keeps its previous content. -/
def countriesStep (dom : Dom) (c : Option Countries) : Dom :=
  match c with
  | none => dom
  | some cs =>
      let alpha := jsOr cs.countryAlpha cs.aliasAlpha
      let beta := jsOr cs.countryBeta cs.aliasBeta
      let gamma := jsOr cs.countryGamma cs.aliasGamma
      { alphaMetrics :=
          match alpha with
          | some a => renderCountryMetrics (some a)
          | none => dom.alphaMetrics
        betaMetrics :=
          match beta with
          | some b => renderCountryMetrics (some b)
          | none => dom.betaMetrics
        gammaMetrics :=
          match gamma with
          | some g => renderCountryMetrics (some g)
          | none => dom.gammaMetrics }

/-- Output written by the render phase of one completed tick. -/
structure RenderOut where
  timeline : ListPanel TimelineItem
  feed : ListPanel Event
  messages : ListPanel Event
  barChart : BarChart
  heatmap : List HeatCell
  welfareChart : WelfareChart
deriving DecidableEq, Repr

/-- Result of one execution of `refresh`: the session state and panel
contents after the tick, the structured render output (`none` when the
tick aborted before the renderers ran), the names of the statements of
`refresh` that executed, whether an exception reached the tick-boundary
`catch` (which only logs), and whether `location.reload()` fired. -/
structure TickResult where
  state : SessionState
  dom : Dom
  out : Option RenderOut
  steps : List String
  caught : Bool
  reloaded : Bool
deriving DecidableEq, Repr

/-- Statements of `refresh` that run before the unguarded
`data.learning.alpha_aggression` access. -/
def stepsBeforeLearning : List String :=
  ["header", "staleness", "classification", "payoff"]

/-- All statements of a fully completed tick, in program order. -/
def allSteps : List String :=
  stepsBeforeLearning ++
    ["learning", "timeline", "feed", "messages", "countries",
     "system-health", "agent-status", "welfare-buffers",
     "trade-flow-chart", "heatmap", "welfare-chart", "stale-check"]

/-- The body of `refresh` after a successful fetch and JSON parse.
Program order: header fields, staleness update, classification, payoff
panel, then `data.learning.alpha_aggression` — which throws a
`TypeError` when `data.learning` is `undefined`, jumping to the
tick-boundary `catch` and skipping every remaining statement (all list
panels, entity metrics, buffers, charts, and the `staleTicks >= 6`
reload check). When `learning` is present the tick runs to completion:
every other absent field is replaced by a local default before its
renderer runs. The welfare chart reads the buffers after this tick's
push. -/
def refreshData (canvasW canvasH : ℚ) (s : SessionState) (dom : Dom)
    (d : Snapshot) : TickResult :=
  let s1 := staleStep s d.timestamp
  match d.learning with
  | none =>
      { state := s1, dom := dom, out := none, steps := stepsBeforeLearning
        caught := true, reloaded := false }
  | some _ =>
      let dom2 := countriesStep dom d.countries
      let s2 := welfareStep s1 d.welfare_impact
      let out : RenderOut :=
        { timeline := renderTimeline (some (d.policy_timeline.getD []))
          feed := renderFeed (some (d.events.getD []))
          messages := renderMessages (some (d.events.getD []))
          barChart := drawTradeFlow canvasW canvasH (d.trade_flow.getD [])
          heatmap := renderHeatmap (some (d.trade_flow.getD []))
          welfareChart := drawWelfare canvasW s2.welfareAlpha s2.welfareBeta
            s2.welfareGamma }
      { state := s2, dom := dom2, out := some out, steps := allSteps
        caught := false, reloaded := decide (s2.staleTicks ≥ 6) }

/-- What one tick's fetch produced: a transport error (the `fetch`
promise rejected), a non-ok response status, a body that failed to
parse as JSON, or a parsed snapshot. -/
inductive FetchResult where
  | transportError
  | badStatus
  | parseError
  | ok (d : Snapshot)
deriving DecidableEq, Repr

/-- One full tick of `refresh`: a transport error is caught by the
outer `catch` (logged); a non-ok status or a parse failure returns
early (silently); all three leave every part of the session state and
the panels untouched and render nothing; a parsed snapshot runs
`refreshData`. -/
def runTick (canvasW canvasH : ℚ) (s : SessionState) (dom : Dom) :
    FetchResult → TickResult
  | .transportError =>
      { state := s, dom := dom, out := none, steps := [], caught := true
        reloaded := false }
  | .badStatus =>
      { state := s, dom := dom, out := none, steps := [], caught := false
        reloaded := false }
  | .parseError =>
      { state := s, dom := dom, out := none, steps := [], caught := false
        reloaded := false }
  | .ok d => refreshData canvasW canvasH s dom d

/-- Run a sequence of ticks. `location.reload()` restarts the client:
the module re-initialises, so session state and panels reset. -/
def runTicks (canvasW canvasH : ℚ) (s : SessionState) (dom : Dom) :
    List FetchResult → SessionState × Dom
  | [] => (s, dom)
  | fr :: rest =>
      let r := runTick canvasW canvasH s dom fr
      if r.reloaded then runTicks canvasW canvasH initState initDom rest
      else runTicks canvasW canvasH r.state r.dom rest

/-- The per-tick `location.reload()` trace of a run. -/
def runTrace (canvasW canvasH : ℚ) (s : SessionState) (dom : Dom) :
    List FetchResult → List Bool
  | [] => []
  | fr :: rest =>
      let r := runTick canvasW canvasH s dom fr
      r.reloaded ::
        (if r.reloaded then runTrace canvasW canvasH initState initDom rest
         else runTrace canvasW canvasH r.state r.dom rest)

/-! ## Helper lemmas -/

section FoldLemmas

variable {α : Type} [LinearOrder α]

lemma foldr_min_le_init (l : List α) (a : α) : l.foldr min a ≤ a := by
  induction l with
  | nil => exact le_refl a
  | cons x xs ih => exact le_trans (min_le_right x (xs.foldr min a)) ih

lemma foldr_min_le_mem {l : List α} {a x : α} (hx : x ∈ l) :
    l.foldr min a ≤ x := by
  induction l with
  | nil => cases hx
  | cons y ys ih =>
      rcases List.mem_cons.mp hx with h | h
      · exact h ▸ min_le_left y (ys.foldr min a)
      · exact le_trans (min_le_right y (ys.foldr min a)) (ih h)

lemma foldr_min_eq_init_or_mem (l : List α) (a : α) :
    l.foldr min a = a ∨ l.foldr min a ∈ l := by
  induction l with
  | nil => exact Or.inl rfl
  | cons x xs ih =>
      have hc : List.foldr min a (x :: xs) = min x (xs.foldr min a) := rfl
      rcases min_cases x (xs.foldr min a) with ⟨he, _⟩ | ⟨he, _⟩
      · exact Or.inr (by rw [hc, he]; exact List.mem_cons_self x xs)
      · rcases ih with h | h
        · exact Or.inl (by rw [hc, he, h])
        · exact Or.inr (by rw [hc, he]; exact List.mem_cons_of_mem x h)

lemma le_foldr_min {l : List α} {a b : α} (ha : b ≤ a)
    (hl : ∀ x ∈ l, b ≤ x) : b ≤ l.foldr min a := by
  induction l with
  | nil => exact ha
  | cons x xs ih =>
      exact le_min (hl x (by simp))
        (ih (fun y hy => hl y (by simp [hy])))

lemma init_le_foldr_max (l : List α) (a : α) : a ≤ l.foldr max a := by
  induction l with
  | nil => exact le_refl a
  | cons x xs ih => exact le_trans ih (le_max_right x (xs.foldr max a))

lemma mem_le_foldr_max {l : List α} {a x : α} (hx : x ∈ l) :
    x ≤ l.foldr max a := by
  induction l with
  | nil => cases hx
  | cons y ys ih =>
      rcases List.mem_cons.mp hx with h | h
      · exact h ▸ le_max_left y (ys.foldr max a)
      · exact le_trans (ih h) (le_max_right y (ys.foldr max a))

lemma foldr_max_eq_init_or_mem (l : List α) (a : α) :
    l.foldr max a = a ∨ l.foldr max a ∈ l := by
  induction l with
  | nil => exact Or.inl rfl
  | cons x xs ih =>
      have hc : List.foldr max a (x :: xs) = max x (xs.foldr max a) := rfl
      rcases max_cases x (xs.foldr max a) with ⟨he, _⟩ | ⟨he, _⟩
      · exact Or.inr (by rw [hc, he]; exact List.mem_cons_self x xs)
      · rcases ih with h | h
        · exact Or.inl (by rw [hc, he, h])
        · exact Or.inr (by rw [hc, he]; exact List.mem_cons_of_mem x h)

lemma foldr_max_le {l : List α} {a b : α} (ha : a ≤ b)
    (hl : ∀ x ∈ l, x ≤ b) : l.foldr max a ≤ b := by
  induction l with
  | nil => exact ha
  | cons x xs ih =>
      exact max_le (hl x (by simp))
        (ih (fun y hy => hl y (by simp [hy])))

end FoldLemmas

@[simp] lemma welfareStep_staleTicks (s : SessionState) (wi : Option WelfareImpact) :
    (welfareStep s wi).staleTicks = s.staleTicks := by
  cases wi with
  | none => rfl
  | some w =>
      show (if _ then _ else _ : SessionState).staleTicks = _
      split <;> rfl

@[simp] lemma welfareStep_lastTimestamp (s : SessionState) (wi : Option WelfareImpact) :
    (welfareStep s wi).lastTimestamp = s.lastTimestamp := by
  cases wi with
  | none => rfl
  | some w =>
      show (if _ then _ else _ : SessionState).lastTimestamp = _
      split <;> rfl

@[simp] lemma staleStep_buffers (s : SessionState) (t : TSVal) :
    (staleStep s t).welfareAlpha = s.welfareAlpha ∧
    (staleStep s t).welfareBeta = s.welfareBeta ∧
    (staleStep s t).welfareGamma = s.welfareGamma := by
  unfold staleStep
  split <;> exact ⟨rfl, rfl, rfl⟩

/-! ## Concrete fixtures shared by witnesses and counterexamples -/

def baseLearning : Learning :=
  { alpha_aggression := .num 1, effectiveness_score := .num 2, note := .str "n" }

/-- A well-formed minimal snapshot: timestamp present, learning present,
every other field absent. -/
def minimalSnap : Snapshot :=
  { timestamp := .str "2025-01-01T00:00:00", round := .undef, phase := .undef
    classification := .undef, learning := some baseLearning, countries := none
    trade_flow := none, welfare_impact := none, events := none
    policy_timeline := none, agent_status := none, system_health := none }

def otherEvent : Event :=
  { timestamp := "t1", source := "agent", title := "note", memo := "m"
    topic := "other", payload := none }

def policyEvent : Event :=
  { timestamp := "t2", source := "agent", title := "tariff", memo := "m2"
    topic := "policy", payload := none }

/-! ## Claim C4 — tick-failure atomicity -/

/-- Claim C4: on every tick whose transport call fails, whose response
status is not ok, or whose body fails to parse, the tick leaves the
whole session state and all panels unchanged, renders nothing, and
fires no reload; the failure is absorbed at the tick boundary (`runTick`
is total: the transport error is caught and only logged, the other two
return early), so no exception escapes. -/
theorem tick_failure_atomic (cw ch : ℚ) (s : SessionState) (dom : Dom)
    (fr : FetchResult) (hfail : ∀ d, fr ≠ FetchResult.ok d) :
    (runTick cw ch s dom fr).state = s ∧
    (runTick cw ch s dom fr).dom = dom ∧
    (runTick cw ch s dom fr).out = none ∧
    (runTick cw ch s dom fr).steps = [] ∧
    (runTick cw ch s dom fr).reloaded = false := by
  cases fr with
  | transportError => exact ⟨rfl, rfl, rfl, rfl, rfl⟩
  | badStatus => exact ⟨rfl, rfl, rfl, rfl, rfl⟩
  | parseError => exact ⟨rfl, rfl, rfl, rfl, rfl⟩
  | ok d => exact absurd rfl (hfail d)

/-- Witness for C4 at a concrete failed tick. -/
theorem tick_failure_atomic_witness :
    (runTick 600 300 initState initDom FetchResult.badStatus).state = initState ∧
    (runTick 600 300 initState initDom FetchResult.badStatus).dom = initDom ∧
    (runTick 600 300 initState initDom FetchResult.badStatus).out = none ∧
    (runTick 600 300 initState initDom FetchResult.badStatus).steps = [] ∧
    (runTick 600 300 initState initDom FetchResult.badStatus).reloaded = false :=
  tick_failure_atomic 600 300 initState initDom FetchResult.badStatus
    (fun _ h => FetchResult.noConfusion h)

/-! ## Claim C6 — messages panel -/

/-- Claim C6 counterexample: with a non-empty event list none of whose
topics is allowlisted, the messages panel is left as an empty container
(`items []`) — not the single placeholder item the claim requires. -/
theorem messages_empty_container_cex :
    renderMessages (some [otherEvent]) = ListPanel.items [] ∧
    otherEvent.topic ∉ messageTopics := by
  constructor
  · rfl
  · simp [otherEvent, messageTopics]

/-- Claim C6 (amended): for every non-empty event list the rendered
messages are exactly the allowlisted events, most-recent-first,
truncated to the 12 most recent matches (equivalently: the last 12
matching events of the chronological list, reversed); the placeholder
is rendered only when the event list itself is absent or empty — a
non-empty list with no allowlisted event yields an empty container. -/
theorem renderMessages_spec (l : List Event) (hl : l ≠ []) :
    renderMessages (some l) =
      ListPanel.items
        (((l.filter (fun e => e.topic ∈ messageTopics)).drop
            ((l.filter (fun e => e.topic ∈ messageTopics)).length - 12)).reverse) ∧
    (∀ ms, renderMessages (some l) = ListPanel.items ms →
        ms.length ≤ 12 ∧ ∀ e ∈ ms, e.topic ∈ messageTopics) ∧
    renderMessages (none : Option (List Event)) =
      ListPanel.placeholder "No inter-agent messages yet." ∧
    renderMessages (some ([] : List Event)) =
      ListPanel.placeholder "No inter-agent messages yet." := by
  have key : renderMessages (some l) =
      ListPanel.items (((l.filter (fun e => e.topic ∈ messageTopics)).reverse).take 12) := by
    show (if l = [] then _ else _) = _
    rw [if_neg hl]
  refine ⟨?_, ?_, rfl, rfl⟩
  · rw [key, List.take_reverse]
  · intro ms hms
    rw [key] at hms
    have hms2 := (ListPanel.items.injEq _ _).mp hms
    subst hms2
    refine ⟨?_, ?_⟩
    · rw [List.length_take]
      exact min_le_left _ _
    · intro e he
      have h2 : e ∈ l.filter (fun e => e.topic ∈ messageTopics) :=
        List.mem_reverse.mp (List.mem_of_mem_take he)
      simpa using List.of_mem_filter h2

/-- Witness for C6 at a concrete event list: the `other`-topic event is
excluded and the `policy`-topic event is rendered. -/
theorem renderMessages_spec_witness :
    renderMessages (some [policyEvent, otherEvent]) = ListPanel.items [policyEvent] := by
  have h := (renderMessages_spec [policyEvent, otherEvent] (by simp)).1
  rw [h]
  rfl

/-! ## Claim C8 — heatmap intensity -/

/-- The scale maximum `Math.max(...values, 1)` computed by `renderHeatmap`. -/
def heatMax (tf : List (String × ℚ)) : ℚ :=
  (tf.map (fun kv => kv.2)).foldr max 1

/-- The cell intensity `Math.min(0.85, 0.2 + value / max)` computed by
`renderHeatmap`. -/
def heatIntensity (tf : List (String × ℚ)) (v : ℚ) : ℚ :=
  min (17/20) (1/5 + v / heatMax tf)

/-- Claim C8 counterexample: the claim asserts the intensity is never
below the 0.2 offset for every trade_flow mapping, but a sector with a
negative value yields `min(0.85, 0.2 + (-1)/1) = -0.8 < 0.2`. -/
theorem heatmap_offset_cex :
    (renderHeatmap (some [("energy", -1)])).map HeatCell.intensity = [-(4/5)] ∧
    (-(4/5) : ℚ) < 1/5 := by
  constructor
  · simp [renderHeatmap]
    norm_num
  · norm_num

/-- Claim C8 (amended): each heatmap cell's intensity is exactly
`min(0.85, 0.2 + value/max)` with `max = max(all values, 1)`; a sector
whose value equals `max` gets intensity exactly 0.85 and a sector with
value 0 gets exactly 0.2; the intensity never exceeds the 0.85 cap, and
it never falls below the 0.2 offset provided the sector's value is
nonnegative (a negative value drives it below the offset). -/
theorem heatmap_intensity_bounds (tf : List (String × ℚ)) (v : ℚ) :
    ((renderHeatmap (some tf)).map HeatCell.intensity =
      tf.map (fun kv => heatIntensity tf kv.2)) ∧
    ((renderHeatmap (some tf)).map HeatCell.value = tf.map (fun kv => kv.2)) ∧
    (v = heatMax tf → heatIntensity tf v = 17/20) ∧
    (v = 0 → heatIntensity tf v = 1/5) ∧
    heatIntensity tf v ≤ 17/20 ∧
    (0 ≤ v → 1/5 ≤ heatIntensity tf v) := by
  have hmax1 : (1 : ℚ) ≤ heatMax tf := init_le_foldr_max _ _
  have hmax0 : (0 : ℚ) < heatMax tf := lt_of_lt_of_le one_pos hmax1
  refine ⟨?_, ?_, ?_, ?_, min_le_left _ _, ?_⟩
  · simp [renderHeatmap, heatIntensity, heatMax, List.map_map]
  · simp [renderHeatmap, List.map_map]
  · intro hv
    rw [heatIntensity, hv, div_self (ne_of_gt hmax0)]
    rw [min_eq_left]
    norm_num
  · intro hv
    rw [heatIntensity, hv, zero_div, add_zero]
    rw [min_eq_right]
    norm_num
  · intro hv
    refine le_min (by norm_num) ?_
    have : (0 : ℚ) ≤ v / heatMax tf := div_nonneg hv (le_of_lt hmax0)
    linarith

/-- Witness for C8: with `trade_flow = [(a, 3), (b, 0)]`, `max = 3`, so
the full-scale sector gets intensity 0.85 and the zero sector 0.2. -/
theorem heatmap_intensity_bounds_witness :
    heatIntensity [("a", 3), ("b", 0)] 3 = 17/20 ∧
    heatIntensity [("a", 3), ("b", 0)] 0 = 1/5 := by
  have hmax : heatMax [("a", (3:ℚ)), ("b", 0)] = 3 := by
    simp [heatMax]
  exact ⟨(heatmap_intensity_bounds [("a", 3), ("b", 0)] 3).2.2.1 hmax.symm,
    (heatmap_intensity_bounds [("a", 3), ("b", 0)] 0).2.2.2.1 rfl⟩

/-! ## Claim C9 — empty or absent trade_flow -/

/-- Claim C9: with an absent or empty `trade_flow` mapping both the
bar chart and the heatmap terminate normally with empty output: the
canvas is cleared and no bars are drawn, the heatmap container is
emptied and no cells appended, the scale maximum falls back to its
floor of 1, and the bar-width division by the zero sector count never
affects any drawn output (the per-bar loop that consumes `barWidth`
draws nothing whatever value the division produced); at the tick level
an absent `trade_flow` is dispatched to both renderers as the empty
mapping. -/
theorem trade_flow_empty_ok (cw ch : ℚ) :
    (drawTradeFlow cw ch []).cleared = true ∧
    (drawTradeFlow cw ch []).bars = [] ∧
    (drawTradeFlow cw ch []).maxVal = 1 ∧
    (∀ bw hgt mv, tradeFlowBars bw hgt mv [] = []) ∧
    renderHeatmap none = [] ∧
    renderHeatmap (some []) = [] ∧
    (∀ (s : SessionState) (dom : Dom) (d : Snapshot) (lv : Learning),
      d.learning = some lv → d.trade_flow = none →
      ∃ ro, (refreshData cw ch s dom d).out = some ro ∧
        ro.barChart = drawTradeFlow cw ch [] ∧
        ro.barChart.bars = [] ∧ ro.heatmap = []) := by
  refine ⟨rfl, rfl, rfl, fun _ _ _ => rfl, rfl, rfl, ?_⟩
  intro s dom d lv hl ht
  simp only [refreshData, hl, ht, Option.getD_none]
  refine ⟨_, rfl, rfl, ?_, ?_⟩
  · simp [drawTradeFlow, tradeFlowBars]
  · simp [renderHeatmap]

/-- Witness for C9 at the minimal snapshot (absent `trade_flow`). -/
theorem trade_flow_empty_ok_witness :
    ∃ ro, (refreshData 600 300 initState initDom minimalSnap).out = some ro ∧
      ro.barChart = drawTradeFlow 600 300 [] ∧
      ro.barChart.bars = [] ∧ ro.heatmap = [] :=
  (trade_flow_empty_ok 600 300).2.2.2.2.2.2 initState initDom minimalSnap
    baseLearning rfl rfl

/-! ## Claim C5 — welfare trend chart scale -/

/-- Claim C5: the rendered minimum bound is `min(all numeric buffer
values, 80)` (characterised: it is at most 80, at most every value, and
is either 80 or one of the values), the maximum bound is
`max(all numeric values, 100)` (dual characterisation), the y-range is
`max(1, maxValue - minValue)`, and the x-step divides the drawable
width `width - 2*30` evenly across `max(alpha buffer length, 2)` points
(`xStep * (maxPoints - 1) = width - 60`); with every value in
`[85, 95]` the bounds are exactly 80 and 100, and with a value of 110
present (and dominating) the maximum bound is exactly 110. -/
theorem drawWelfare_scale (w : ℚ) (hA hB hG : List (Option ℚ)) :
    ((drawWelfare w hA hB hG).minValue ≤ 80 ∧
      (∀ v ∈ welfareAllValues hA hB hG, (drawWelfare w hA hB hG).minValue ≤ v) ∧
      ((drawWelfare w hA hB hG).minValue = 80 ∨
        (drawWelfare w hA hB hG).minValue ∈ welfareAllValues hA hB hG)) ∧
    ((100 : ℚ) ≤ (drawWelfare w hA hB hG).maxValue ∧
      (∀ v ∈ welfareAllValues hA hB hG, v ≤ (drawWelfare w hA hB hG).maxValue) ∧
      ((drawWelfare w hA hB hG).maxValue = 100 ∨
        (drawWelfare w hA hB hG).maxValue ∈ welfareAllValues hA hB hG)) ∧
    (drawWelfare w hA hB hG).range =
      max 1 ((drawWelfare w hA hB hG).maxValue - (drawWelfare w hA hB hG).minValue) ∧
    (drawWelfare w hA hB hG).maxPoints = max hA.length 2 ∧
    (drawWelfare w hA hB hG).xStep * (((drawWelfare w hA hB hG).maxPoints : ℚ) - 1) =
      w - 60 ∧
    ((∀ v ∈ welfareAllValues hA hB hG, 85 ≤ v ∧ v ≤ 95) →
      (drawWelfare w hA hB hG).minValue = 80 ∧
      (drawWelfare w hA hB hG).maxValue = 100) ∧
    ((110 : ℚ) ∈ welfareAllValues hA hB hG →
      (∀ v ∈ welfareAllValues hA hB hG, v ≤ 110) →
      (drawWelfare w hA hB hG).maxValue = 110) := by
  have hminv : (drawWelfare w hA hB hG).minValue =
      (welfareAllValues hA hB hG).foldr min 80 := rfl
  have hmaxv : (drawWelfare w hA hB hG).maxValue =
      (welfareAllValues hA hB hG).foldr max 100 := rfl
  refine ⟨⟨?_, ?_, ?_⟩, ⟨?_, ?_, ?_⟩, rfl, rfl, ?_, ?_, ?_⟩
  · rw [hminv]; exact foldr_min_le_init _ _
  · intro v hv; rw [hminv]; exact foldr_min_le_mem hv
  · rw [hminv]; exact foldr_min_eq_init_or_mem _ _
  · rw [hmaxv]; exact init_le_foldr_max _ _
  · intro v hv; rw [hmaxv]; exact mem_le_foldr_max hv
  · rw [hmaxv]; exact foldr_max_eq_init_or_mem _ _
  · have hxs : (drawWelfare w hA hB hG).xStep =
        (w - 60) / (((max hA.length 2 : ℕ) : ℚ) - 1) := rfl
    have hmp : (drawWelfare w hA hB hG).maxPoints = max hA.length 2 := rfl
    rw [hxs, hmp]
    have h2 : (2 : ℚ) ≤ ((max hA.length 2 : ℕ) : ℚ) := by
      exact_mod_cast le_max_right hA.length 2
    exact div_mul_cancel₀ _ (by linarith)
  · intro hall
    constructor
    · rw [hminv]
      refine le_antisymm (foldr_min_le_init _ _) ?_
      exact le_foldr_min le_rfl (fun x hx => by linarith [(hall x hx).1])
    · rw [hmaxv]
      refine le_antisymm ?_ (init_le_foldr_max _ _)
      exact foldr_max_le le_rfl (fun x hx => by linarith [(hall x hx).2])
  · intro hmem hall
    rw [hmaxv]
    refine le_antisymm (foldr_max_le (by norm_num) hall) (mem_le_foldr_max hmem)

/-- Witness for C5: buffers with values in `[85, 95]` give bounds
(80, 100); a buffer containing 110 gives maximum bound 110. -/
theorem drawWelfare_scale_witness :
    (drawWelfare 600 [some 85, some 95] [none] []).minValue = 80 ∧
    (drawWelfare 600 [some 85, some 95] [none] []).maxValue = 100 ∧
    (drawWelfare 600 [some 110] [] []).maxValue = 110 := by
  have h1 := (drawWelfare_scale 600 [some 85, some 95] [none] []).2.2.2.2.2.1
    (by
      intro v hv
      simp [welfareAllValues] at hv
      rcases hv with rfl | rfl <;> norm_num)
  have h2 := (drawWelfare_scale 600 [some 110] [] []).2.2.2.2.2.2
    (by simp [welfareAllValues])
    (by
      intro v hv
      simp [welfareAllValues] at hv
      rw [hv])
  exact ⟨h1.1, h1.2, h2⟩

/-! ## Claim C7 — entity metrics renderer -/

def fullMetrics : CountryMetrics :=
  { gdp := .num 100, welfare := .num 90, political_pressure := .str "high"
    exports := some [("electronics", .num 5)]
    imports := some [("energy", .num 3)], tariffs := none }

def alphaCard : CountryPanel := renderCountryMetrics (some fullMetrics)

def staleDom : Dom :=
  { alphaMetrics := alphaCard, betaMetrics := .initial, gammaMetrics := .initial }

def noAlphaCountries : Countries :=
  { countryAlpha := none, aliasAlpha := none, countryBeta := none
    aliasBeta := none, countryGamma := none, aliasGamma := none }

/-- Claim C7 counterexample: when the entity's record is absent from a
present `countries` object, the tick never invokes the renderer for that
entity (`if (alpha) renderCountryMetrics(...)`), so the panel keeps its
previous card — stale prior content instead of the "no data"
placeholder the claim requires. -/
theorem country_absent_stale_cex :
    (countriesStep staleDom (some noAlphaCountries)).alphaMetrics = alphaCard ∧
    alphaCard ≠ CountryPanel.noData := by
  constructor
  · rfl
  · simp [alphaCard, renderCountryMetrics, fullMetrics]

/-- Claim C7 (amended): the renderer itself honours the contract — a
record with `gdp` absent (or an absent record, when the renderer is
called with one) yields the single "no data" placeholder with no KPI or
table elements; a record with `gdp` present yields the full card with
numeric KPI values formatted to two decimals, non-numeric values passed
through unmodified, and exports/imports/tariffs tables in source
insertion order with tariffs defaulting to empty. However, at the tick
level the dispatch only calls the renderer for a present record: when
the lookup (full name, then alias) fails, the panel retains its prior
content, and when `countries` is absent entirely no panel changes. -/
theorem entity_metrics_spec (d : CountryMetrics) (dom : Dom) (cs : Countries) :
    (d.gdp = JsVal.undef → renderCountryMetrics (some d) = CountryPanel.noData) ∧
    renderCountryMetrics none = CountryPanel.noData ∧
    (d.gdp ≠ JsVal.undef →
      renderCountryMetrics (some d) =
        CountryPanel.card (formatNumber d.gdp) (formatNumber d.welfare)
          (formatNumber d.political_pressure)
          (metricTable d.exports) (metricTable d.imports)
          (metricTable (some (d.tariffs.getD [])))) ∧
    (∀ q, formatNumber (JsVal.num q) = Formatted.fixed2 q) ∧
    (∀ t, formatNumber (JsVal.str t) = Formatted.raw (JsVal.str t)) ∧
    (∀ obj : List (String × JsVal),
      (metricTable (some obj)).map Prod.fst = obj.map Prod.fst) ∧
    metricTable none = [] ∧
    (jsOr cs.countryAlpha cs.aliasAlpha = none →
      (countriesStep dom (some cs)).alphaMetrics = dom.alphaMetrics) ∧
    countriesStep dom none = dom := by
  refine ⟨?_, rfl, ?_, fun q => rfl, fun t => rfl, ?_, rfl, ?_, rfl⟩
  · intro h
    simp [renderCountryMetrics, h]
  · intro h
    simp [renderCountryMetrics, h]
  · intro obj
    simp [metricTable]
  · intro h
    simp only [countriesStep, h]

/-- Witness for C7: a record with `gdp` absent renders the placeholder;
a full record renders the card; an absent record leaves the panel as it
was. -/
theorem entity_metrics_spec_witness :
    renderCountryMetrics
        (some { gdp := .undef, welfare := .num 90, political_pressure := .undef
                exports := none, imports := none, tariffs := none }) =
      CountryPanel.noData ∧
    renderCountryMetrics (some fullMetrics) =
      CountryPanel.card (Formatted.fixed2 100) (Formatted.fixed2 90)
        (Formatted.raw (JsVal.str "high"))
        [("electronics", Formatted.fixed2 5)] [("energy", Formatted.fixed2 3)] [] ∧
    (countriesStep staleDom (some noAlphaCountries)).alphaMetrics = staleDom.alphaMetrics := by
  refine ⟨?_, ?_, ?_⟩
  · exact (entity_metrics_spec
      { gdp := .undef, welfare := .num 90, political_pressure := .undef
        exports := none, imports := none, tariffs := none } staleDom noAlphaCountries).1 rfl
  · have h := (entity_metrics_spec fullMetrics staleDom noAlphaCountries).2.2.1
      (by simp [fullMetrics])
    rw [h]
    rfl
  · exact (entity_metrics_spec fullMetrics staleDom noAlphaCountries).2.2.2.2.2.2.2.1 rfl

/-! ## Claim C2 — history buffers -/

/-- The lockstep invariant of the three history buffers: equal lengths,
bounded by the capacity 20. -/
def bufInv (s : SessionState) : Prop :=
  s.welfareAlpha.length ≤ 20 ∧
  s.welfareBeta.length = s.welfareAlpha.length ∧
  s.welfareGamma.length = s.welfareAlpha.length

lemma bufInv_initState : bufInv initState :=
  ⟨by norm_num [initState], rfl, rfl⟩

lemma bufInv_staleStep {s : SessionState} (h : bufInv s) (t : TSVal) :
    bufInv (staleStep s t) := by
  obtain ⟨ha, hb, hg⟩ := (staleStep_buffers s t)
  unfold bufInv
  rw [ha, hb, hg]
  exact h

lemma bufInv_welfareStep {s : SessionState} (h : bufInv s)
    (wi : Option WelfareImpact) : bufInv (welfareStep s wi) := by
  obtain ⟨h20, hb, hg⟩ := h
  cases wi with
  | none => exact ⟨h20, hb, hg⟩
  | some w =>
      by_cases hlen : (s.welfareAlpha ++ [w.countryAlpha]).length > 20
      · simp only [welfareStep, if_pos hlen]
        refine ⟨?_, ?_, ?_⟩ <;>
          · simp only [List.length_drop, List.length_append,
              List.length_singleton]
            omega
      · simp only [welfareStep, if_neg hlen]
        rw [List.length_append, List.length_singleton] at hlen
        refine ⟨?_, ?_, ?_⟩ <;>
          · simp only [List.length_append, List.length_singleton]
            omega

lemma bufInv_runTick {s : SessionState} (h : bufInv s) (cw ch : ℚ)
    (dom : Dom) (fr : FetchResult) : bufInv (runTick cw ch s dom fr).state := by
  cases fr with
  | transportError => exact h
  | badStatus => exact h
  | parseError => exact h
  | ok d =>
      show bufInv (refreshData cw ch s dom d).state
      cases hl : d.learning with
      | none =>
          simp only [refreshData, hl]
          exact bufInv_staleStep h _
      | some lv =>
          simp only [refreshData, hl]
          exact bufInv_welfareStep (bufInv_staleStep h _) _

lemma bufInv_runTicks (cw ch : ℚ) :
    ∀ (frs : List FetchResult) (s : SessionState) (dom : Dom), bufInv s →
      bufInv (runTicks cw ch s dom frs).1 := by
  intro frs
  induction frs with
  | nil => intro s dom h; exact h
  | cons fr rest ih =>
      intro s dom h
      rw [runTicks]
      split
      · exact ih initState initDom bufInv_initState
      · exact ih _ _ (bufInv_runTick h cw ch dom fr)

/-- Claim C2: starting from the empty buffers, after any sequence of
ticks all three history buffers have equal length at most 20; on any
tick whose snapshot carries `welfare_impact`, if the buffers are at
capacity (20) the oldest element of each is evicted and the new value
appended to each (FIFO, lockstep); below capacity the value is appended
to each with no eviction; and on a tick whose snapshot lacks
`welfare_impact` no buffer is touched at all. -/
theorem history_buffers_fifo (cw ch : ℚ) (frs : List FetchResult)
    (s : SessionState) (w : WelfareImpact) :
    ((runTicks cw ch initState initDom frs).1.welfareAlpha.length ≤ 20 ∧
      (runTicks cw ch initState initDom frs).1.welfareBeta.length =
        (runTicks cw ch initState initDom frs).1.welfareAlpha.length ∧
      (runTicks cw ch initState initDom frs).1.welfareGamma.length =
        (runTicks cw ch initState initDom frs).1.welfareAlpha.length) ∧
    (s.welfareAlpha.length = 20 → s.welfareBeta.length = 20 →
      s.welfareGamma.length = 20 →
      welfareStep s (some w) =
        { s with
            welfareAlpha := s.welfareAlpha.drop 1 ++ [w.countryAlpha]
            welfareBeta := s.welfareBeta.drop 1 ++ [w.countryBeta]
            welfareGamma := s.welfareGamma.drop 1 ++ [w.countryGamma] }) ∧
    (s.welfareAlpha.length < 20 →
      welfareStep s (some w) =
        { s with
            welfareAlpha := s.welfareAlpha ++ [w.countryAlpha]
            welfareBeta := s.welfareBeta ++ [w.countryBeta]
            welfareGamma := s.welfareGamma ++ [w.countryGamma] }) ∧
    welfareStep s none = s := by
  refine ⟨bufInv_runTicks cw ch frs initState initDom bufInv_initState, ?_, ?_, rfl⟩
  · intro h20a h20b h20g
    have hda : (s.welfareAlpha ++ [w.countryAlpha]).drop 1 =
        s.welfareAlpha.drop 1 ++ [w.countryAlpha] :=
      List.drop_append_of_le_length (by rw [h20a]; norm_num)
    have hdb : (s.welfareBeta ++ [w.countryBeta]).drop 1 =
        s.welfareBeta.drop 1 ++ [w.countryBeta] :=
      List.drop_append_of_le_length (by rw [h20b]; norm_num)
    have hdg : (s.welfareGamma ++ [w.countryGamma]).drop 1 =
        s.welfareGamma.drop 1 ++ [w.countryGamma] :=
      List.drop_append_of_le_length (by rw [h20g]; norm_num)
    have hcond : (s.welfareAlpha ++ [w.countryAlpha]).length > 20 := by
      rw [List.length_append, List.length_singleton, h20a]
      norm_num
    simp only [welfareStep, if_pos hcond]
    rw [hda, hdb, hdg]
  · intro hlt
    have hcond : ¬ (s.welfareAlpha ++ [w.countryAlpha]).length > 20 := by
      rw [List.length_append, List.length_singleton]
      omega
    simp only [welfareStep, if_neg hcond]

/-- Witness for C2: at capacity, a push evicts the oldest element of
each buffer and appends the new value. -/
theorem history_buffers_fifo_witness :
    welfareStep
        { welfareAlpha := List.replicate 20 (some 1)
          welfareBeta := List.replicate 20 (some 2)
          welfareGamma := List.replicate 20 (some 3)
          lastTimestamp := TSVal.str "t", staleTicks := 0 }
        (some { countryAlpha := some 4, countryBeta := none, countryGamma := some 6 }) =
      { welfareAlpha := (List.replicate 20 (some (1:ℚ))).drop 1 ++ [some 4]
        welfareBeta := (List.replicate 20 (some (2:ℚ))).drop 1 ++ [none]
        welfareGamma := (List.replicate 20 (some (3:ℚ))).drop 1 ++ [some 6]
        lastTimestamp := TSVal.str "t", staleTicks := 0 } := by
  have h := (history_buffers_fifo 600 300 []
      { welfareAlpha := List.replicate 20 (some 1)
        welfareBeta := List.replicate 20 (some 2)
        welfareGamma := List.replicate 20 (some 3)
        lastTimestamp := TSVal.str "t", staleTicks := 0 }
      { countryAlpha := some 4, countryBeta := none, countryGamma := some 6 }).2.1
    (by simp) (by simp) (by simp)
  rw [h]

/-! ## Staleness trace lemmas -/

lemma staleStep_of_eq {s : SessionState} {t : TSVal} (h : t = s.lastTimestamp) :
    staleStep s t = { s with staleTicks := s.staleTicks + 1 } := by
  rw [staleStep, if_pos h]

lemma staleStep_of_ne {s : SessionState} {t : TSVal} (h : ¬ t = s.lastTimestamp) :
    staleStep s t = { s with staleTicks := 0, lastTimestamp := t } := by
  rw [staleStep, if_neg h]

lemma refreshData_some (cw ch : ℚ) (s : SessionState) (dom : Dom)
    (d : Snapshot) (lv : Learning) (hl : d.learning = some lv) :
    (refreshData cw ch s dom d).state =
      welfareStep (staleStep s d.timestamp) d.welfare_impact ∧
    (refreshData cw ch s dom d).reloaded =
      decide ((staleStep s d.timestamp).staleTicks ≥ 6) := by
  constructor
  · simp only [refreshData, hl]
  · simp only [refreshData, hl, welfareStep_staleTicks]

/-- Trace of a run of `n` snapshots whose timestamp matches the running
`lastTimestamp` the whole way: each tick increments `staleTicks`, and
the reload flag of the i-th tick (0-based) is `staleTicks₀ + i + 1 ≥ 6`.
The bound keeps any reload at the final tick only, so no mid-run client
reset occurs. -/
lemma runTrace_replicate_stale (cw ch : ℚ) (d : Snapshot) (lv : Learning)
    (hl : d.learning = some lv) :
    ∀ (n : ℕ) (s : SessionState) (dom : Dom),
      d.timestamp = s.lastTimestamp → s.staleTicks + n ≤ 6 →
      runTrace cw ch s dom (List.replicate n (FetchResult.ok d)) =
        (List.range n).map (fun i => decide (s.staleTicks + i + 1 ≥ 6)) := by
  intro n
  induction n with
  | zero => intro s dom _ _; rfl
  | succ n ih =>
      intro s dom ht hb
      obtain ⟨hstate, hrel⟩ := refreshData_some cw ch s dom d lv hl
      have hstale : (staleStep s d.timestamp).staleTicks = s.staleTicks + 1 := by
        rw [staleStep_of_eq ht]
      have hticks : (welfareStep (staleStep s d.timestamp)
          d.welfare_impact).staleTicks = s.staleTicks + 1 := by
        rw [welfareStep_staleTicks, hstale]
      have hlast : (welfareStep (staleStep s d.timestamp)
          d.welfare_impact).lastTimestamp = s.lastTimestamp := by
        rw [welfareStep_lastTimestamp, staleStep_of_eq ht]
      rw [List.replicate_succ, runTrace]
      simp only [runTick, hstate, hrel, hstale]
      by_cases h6 : s.staleTicks + 1 ≥ 6
      · have hn : n = 0 := by omega
        subst hn
        simp only [decide_eq_true h6, if_pos rfl, List.replicate_zero, runTrace]
        have : (List.range 1).map (fun i => decide (s.staleTicks + i + 1 ≥ 6)) =
            [decide (s.staleTicks + 0 + 1 ≥ 6)] := rfl
        rw [this]
        simp [h6]
      · have hd6 : decide (s.staleTicks + 1 ≥ 6) = false := by
          simp [h6]
        rw [hd6]
        simp only [Bool.false_eq_true, if_false]
        rw [ih _ _ (by rw [hlast]; exact ht) (by rw [hticks]; omega)]
        rw [List.range_succ_eq_map, List.map_cons, List.map_map]
        congr 1
        · simp [h6]
        · apply List.map_congr_left
          intro i _
          simp only [Function.comp_apply, hticks]
          have harith : s.staleTicks + 1 + i + 1 = s.staleTicks + (i + 1) + 1 := by
            omega
          rw [harith]

/-! ## Claim C1 — staleness state machine -/

/-- A snapshot whose timestamp equals the initial `lastTimestamp` (the
empty string), with `learning` present. -/
def staleSnap : Snapshot := { minimalSnap with timestamp := .str "" }

/-- The same stale snapshot with `learning` absent. -/
def staleSnapNoLearning : Snapshot := { staleSnap with learning := none }

/-- Claim C1 counterexample: six consecutive successfully fetched and
parsed snapshots with identical timestamps, the sixth of which lacks
the `learning` field. The sixth tick updates `staleTicks` to 6 but then
throws at the unguarded learning access before reaching the
`staleTicks >= 6` check, so no reset fires on the 6th consecutive
stale tick — the claim says it fires there. -/
theorem stale_sixth_tick_no_reset_cex :
    runTrace 600 300 initState initDom
        (List.replicate 5 (FetchResult.ok staleSnap) ++
          [FetchResult.ok staleSnapNoLearning]) =
      [false, false, false, false, false, false] ∧
    (runTicks 600 300 initState initDom
        (List.replicate 5 (FetchResult.ok staleSnap) ++
          [FetchResult.ok staleSnapNoLearning])).1.staleTicks = 6 :=
  ⟨rfl, rfl⟩

/-- Claim C1 (amended): on every successfully fetched and parsed
snapshot the staleness transition holds as claimed — equal timestamp
increments `staleTicks`, a different timestamp resets it to 0 and
stores the new value — and this update runs even on ticks later aborted
by a shape error. The reset fires exactly once, on the 6th consecutive
tick with an identical timestamp and never earlier, provided those
ticks complete their render phase (their `learning` field is present);
a tick aborted at the learning access skips the reset check (see the
counterexample). -/
theorem staleness_machine (cw ch : ℚ) (s : SessionState) (dom : Dom)
    (d : Snapshot) :
    (d.timestamp = s.lastTimestamp →
      (refreshData cw ch s dom d).state.staleTicks = s.staleTicks + 1 ∧
      (refreshData cw ch s dom d).state.lastTimestamp = s.lastTimestamp) ∧
    (d.timestamp ≠ s.lastTimestamp →
      (refreshData cw ch s dom d).state.staleTicks = 0 ∧
      (refreshData cw ch s dom d).state.lastTimestamp = d.timestamp) ∧
    (∀ lv, d.learning = some lv → d.timestamp = s.lastTimestamp →
      s.staleTicks = 0 →
      runTrace cw ch s dom (List.replicate 6 (FetchResult.ok d)) =
        [false, false, false, false, false, true]) := by
  have hst : (refreshData cw ch s dom d).state.staleTicks =
      (staleStep s d.timestamp).staleTicks ∧
      (refreshData cw ch s dom d).state.lastTimestamp =
      (staleStep s d.timestamp).lastTimestamp := by
    cases hl : d.learning with
    | none => exact ⟨by simp only [refreshData, hl], by simp only [refreshData, hl]⟩
    | some lv =>
        exact ⟨by simp only [refreshData, hl, welfareStep_staleTicks],
          by simp only [refreshData, hl, welfareStep_lastTimestamp]⟩
  refine ⟨?_, ?_, ?_⟩
  · intro ht
    rw [hst.1, hst.2, staleStep_of_eq ht]
    exact ⟨rfl, rfl⟩
  · intro ht
    rw [hst.1, hst.2, staleStep_of_ne ht]
    exact ⟨rfl, rfl⟩
  · intro lv hl ht hs
    rw [runTrace_replicate_stale cw ch d lv hl 6 s dom ht (by omega)]
    simp only [hs]
    rfl

/-- Witness for C1: from the freshly initialised client, six snapshots
whose timestamp equals the initial empty string produce a reload
exactly on the sixth tick; one matching snapshot increments
`staleTicks`, and one differing snapshot resets it and stores the new
timestamp. -/
theorem staleness_machine_witness :
    runTrace 600 300 initState initDom
        (List.replicate 6 (FetchResult.ok staleSnap)) =
      [false, false, false, false, false, true] ∧
    (refreshData 600 300 initState initDom staleSnap).state.staleTicks = 1 ∧
    (refreshData 600 300 initState initDom minimalSnap).state.staleTicks = 0 ∧
    (refreshData 600 300 initState initDom minimalSnap).state.lastTimestamp =
      TSVal.str "2025-01-01T00:00:00" := by
  have h := staleness_machine 600 300 initState initDom staleSnap
  have h2 := staleness_machine 600 300 initState initDom minimalSnap
  have hne : minimalSnap.timestamp ≠ initState.lastTimestamp := by
    simp [minimalSnap, initState]
  exact ⟨h.2.2 baseLearning rfl rfl rfl, (h.1 rfl).1,
    (h2.2.1 hne).1, (h2.2.1 hne).2⟩

/-! ## Claim C3 — shape tolerance -/

/-- A snapshot that is complete except for the `learning` field. -/
def richNoLearningSnap : Snapshot :=
  { timestamp := .str "ts-1", round := .num 3, phase := .str "Escalation"
    classification := .str "TRADE_CONFLICT", learning := none
    countries := some noAlphaCountries
    trade_flow := some [("electronics", 10)]
    welfare_impact := some { countryAlpha := some 1, countryBeta := some 2
                             countryGamma := some 3 }
    events := some [policyEvent]
    policy_timeline := some [{ timestamp := "t", label := "l" }]
    agent_status := some [("alpha", "active")]
    system_health := some "file" }

/-- Claim C3 counterexample: a snapshot missing only `learning` does
not complete the tick: the unguarded `data.learning.alpha_aggression`
access throws, the error is caught (and logged) at the tick boundary,
and every remaining renderer — timeline, feed, messages, countries,
charts — and the staleness reload check are skipped. -/
theorem learning_missing_aborts_cex :
    (refreshData 600 300 initState initDom richNoLearningSnap).caught = true ∧
    (refreshData 600 300 initState initDom richNoLearningSnap).out = none ∧
    (refreshData 600 300 initState initDom richNoLearningSnap).steps =
      stepsBeforeLearning ∧
    ("timeline" ∈ allSteps ∧ "timeline" ∉ stepsBeforeLearning) ∧
    ("stale-check" ∈ allSteps ∧ "stale-check" ∉ stepsBeforeLearning) ∧
    (refreshData 600 300 initState initDom richNoLearningSnap).reloaded = false := by
  refine ⟨rfl, rfl, rfl, ⟨?_, ?_⟩, ⟨?_, ?_⟩, rfl⟩ <;>
    simp [allSteps, stepsBeforeLearning]

/-- Claim C3 (amended): for every snapshot whose `learning` field is
present, the tick completes every rendering step and the staleness
check no matter which other fields are absent, each renderer falling
back to its local placeholder or empty output; but a snapshot with
`learning` absent aborts the tick at the learning access: the error is
caught at the tick boundary (logged by the `catch`), and the remaining
renderers and the reload check are skipped, with only the staleness
counters already updated. -/
theorem shape_tolerance (cw ch : ℚ) (s : SessionState) (dom : Dom)
    (d : Snapshot) :
    (∀ lv, d.learning = some lv →
      (refreshData cw ch s dom d).caught = false ∧
      (refreshData cw ch s dom d).steps = allSteps ∧
      (refreshData cw ch s dom d).reloaded =
        decide ((refreshData cw ch s dom d).state.staleTicks ≥ 6) ∧
      (∃ ro, (refreshData cw ch s dom d).out = some ro ∧
        (d.policy_timeline = none →
          ro.timeline = ListPanel.placeholder "Awaiting first policy updates...") ∧
        (d.events = none →
          ro.feed = ListPanel.placeholder "No agent activity yet." ∧
          ro.messages = ListPanel.placeholder "No inter-agent messages yet.") ∧
        (d.trade_flow = none → ro.barChart.bars = [] ∧ ro.heatmap = []))) ∧
    (d.learning = none →
      (refreshData cw ch s dom d).caught = true ∧
      (refreshData cw ch s dom d).out = none ∧
      (refreshData cw ch s dom d).steps = stepsBeforeLearning ∧
      (refreshData cw ch s dom d).reloaded = false ∧
      (refreshData cw ch s dom d).dom = dom ∧
      (refreshData cw ch s dom d).state = staleStep s d.timestamp) := by
  constructor
  · intro lv hl
    have hout : (refreshData cw ch s dom d).out = some
        { timeline := renderTimeline (some (d.policy_timeline.getD []))
          feed := renderFeed (some (d.events.getD []))
          messages := renderMessages (some (d.events.getD []))
          barChart := drawTradeFlow cw ch (d.trade_flow.getD [])
          heatmap := renderHeatmap (some (d.trade_flow.getD []))
          welfareChart := drawWelfare cw
            (welfareStep (staleStep s d.timestamp) d.welfare_impact).welfareAlpha
            (welfareStep (staleStep s d.timestamp) d.welfare_impact).welfareBeta
            (welfareStep (staleStep s d.timestamp) d.welfare_impact).welfareGamma } := by
      simp only [refreshData, hl]
    refine ⟨by simp only [refreshData, hl], by simp only [refreshData, hl],
      by simp only [refreshData, hl], ⟨_, hout, ?_, ?_, ?_⟩⟩
    · intro hpt
      rw [hpt]
      rfl
    · intro hev
      rw [hev]
      exact ⟨rfl, rfl⟩
    · intro htf
      rw [htf]
      exact ⟨rfl, rfl⟩
  · intro hl
    exact ⟨by simp only [refreshData, hl], by simp only [refreshData, hl],
      by simp only [refreshData, hl], by simp only [refreshData, hl],
      by simp only [refreshData, hl], by simp only [refreshData, hl]⟩

/-- Witness for C3: the minimal snapshot (learning present, everything
else absent) completes the whole tick; the rich snapshot missing only
`learning` aborts after the pre-learning steps. -/
theorem shape_tolerance_witness :
    (refreshData 600 300 initState initDom minimalSnap).caught = false ∧
    (refreshData 600 300 initState initDom minimalSnap).steps = allSteps ∧
    (refreshData 600 300 initState initDom richNoLearningSnap).steps =
      stepsBeforeLearning := by
  have h1 := (shape_tolerance 600 300 initState initDom minimalSnap).1
    baseLearning rfl
  have h2 := (shape_tolerance 600 300 initState initDom richNoLearningSnap).2 rfl
  exact ⟨h1.1, h1.2.1, h2.2.2.1⟩

/-! ## Claim C10 — initial and absent timestamps -/

/-- A well-formed snapshot whose `timestamp` field is absent. -/
def noTsSnap : Snapshot := { minimalSnap with timestamp := .undef }

/-- Claim C10 counterexample: six consecutive timestamp-less snapshots
from a fresh client do NOT trigger the reset — the first one differs
from the initial `lastTimestamp = ""` (in JS, `undefined === ""` is
false), so it resets `staleTicks` to 0 and stores `undefined`; only the
following five count as stale, ending at `staleTicks = 5 < 6`. -/
theorem six_missing_timestamps_cex :
    runTrace 600 300 initState initDom
        (List.replicate 6 (FetchResult.ok noTsSnap)) =
      [false, false, false, false, false, false] ∧
    (runTicks 600 300 initState initDom
        (List.replicate 6 (FetchResult.ok noTsSnap))).1.staleTicks = 5 :=
  ⟨rfl, rfl⟩

/-- Claim C10 (amended): `lastTimestamp` starts as the empty string, so
a first snapshot whose timestamp IS the empty string counts as stale on
the very first tick; a snapshot with `timestamp` absent stores the
absent value as `lastTimestamp`, and any two consecutive
timestamp-less snapshots compare equal and count toward the staleness
threshold. However, from a fresh client SEVEN (not six) consecutive
timestamp-less snapshots are needed to trigger the reset: the first
records the absent value (it differs from the initial empty string) and
only the next six count as stale, the reset firing on the 7th. -/
theorem missing_timestamp_staleness (cw ch : ℚ) (dom : Dom) (d : Snapshot)
    (s : SessionState) :
    initState.lastTimestamp = TSVal.str "" ∧
    (s.lastTimestamp = TSVal.str "" →
      (staleStep s (TSVal.str "")).staleTicks = s.staleTicks + 1) ∧
    (s.lastTimestamp ≠ TSVal.undef →
      (staleStep s TSVal.undef).staleTicks = 0 ∧
      (staleStep s TSVal.undef).lastTimestamp = TSVal.undef) ∧
    (s.lastTimestamp = TSVal.undef →
      (staleStep s TSVal.undef).staleTicks = s.staleTicks + 1 ∧
      (staleStep s TSVal.undef).lastTimestamp = TSVal.undef) ∧
    (∀ lv, d.learning = some lv → d.timestamp = TSVal.undef →
      runTrace cw ch initState dom (List.replicate 7 (FetchResult.ok d)) =
        [false, false, false, false, false, false, true]) := by
  refine ⟨rfl, ?_, ?_, ?_, ?_⟩
  · intro h
    rw [staleStep_of_eq h.symm]
  · intro h
    rw [staleStep_of_ne (fun hc => h hc.symm)]
    exact ⟨rfl, rfl⟩
  · intro h
    rw [staleStep_of_eq h.symm]
    exact ⟨rfl, h⟩
  · intro lv hl ht
    obtain ⟨hstate, hrel⟩ := refreshData_some cw ch initState dom d lv hl
    have hne : ¬ d.timestamp = initState.lastTimestamp := by
      rw [ht]
      exact fun hc => TSVal.noConfusion hc
    have hstep : staleStep initState d.timestamp =
        { initState with staleTicks := 0, lastTimestamp := d.timestamp } :=
      staleStep_of_ne hne
    have hticks : (welfareStep (staleStep initState d.timestamp)
        d.welfare_impact).staleTicks = 0 := by
      rw [welfareStep_staleTicks, hstep]
    have hlast : (welfareStep (staleStep initState d.timestamp)
        d.welfare_impact).lastTimestamp = d.timestamp := by
      rw [welfareStep_lastTimestamp, hstep]
    have h7 : List.replicate 7 (FetchResult.ok d) =
        FetchResult.ok d :: List.replicate 6 (FetchResult.ok d) := rfl
    have hst0 : (staleStep initState d.timestamp).staleTicks = 0 := by
      rw [hstep]
    rw [h7, runTrace]
    simp only [runTick, hstate, hrel, hst0]
    have hfalse : decide ((0 : ℕ) ≥ 6) = false := rfl
    rw [hfalse]
    simp only [Bool.false_eq_true, if_false]
    rw [runTrace_replicate_stale cw ch d lv hl 6 _ _ (by rw [hlast])
      (by rw [hticks])]
    simp only [hticks]
    rfl

/-- Witness for C10: the concrete timestamp-less snapshot run — seven
ticks from the fresh client, reload exactly on the seventh — plus the
first-tick staleness of an empty-string timestamp. -/
theorem missing_timestamp_staleness_witness :
    runTrace 600 300 initState initDom
        (List.replicate 7 (FetchResult.ok noTsSnap)) =
      [false, false, false, false, false, false, true] ∧
    (staleStep initState (TSVal.str "")).staleTicks = 1 ∧
    (staleStep initState TSVal.undef).staleTicks = 0 ∧
    (staleStep initState TSVal.undef).lastTimestamp = TSVal.undef := by
  have h := missing_timestamp_staleness 600 300 initDom noTsSnap initState
  refine ⟨h.2.2.2.2 baseLearning rfl rfl, h.2.1 rfl, ?_, ?_⟩
  · exact (h.2.2.1 (fun hc => TSVal.noConfusion hc)).1
  · exact (h.2.2.1 (fun hc => TSVal.noConfusion hc)).2
